import Mathlib

/-!
Verification development for the NGEN-consultor-AI repository.

The Python sources under `src/` are shallowly embedded below. Python
strings are modelled as Lean `String` (a structure around `List Char`),
and the Python `str` methods used by the code (`strip`, `lower`,
`split`, `replace`, `join`, `startswith`, the `in` substring test) are
re-implemented over the character lists so that every operation is
executable and provable. Python numbers appearing in the cost pipeline
(rates, hours, costs) are modelled as exact rationals `ℚ`; all the
concrete values exercised by the code and its callers are small
integers, for which Python float arithmetic is likewise exact. Python
dicts that the code builds by insertion are modelled as
insertion-ordered association lists. Fallible code is modelled with
`Option`/`Except`.
-/

namespace NGEN

/-! ## Python string primitives (models of the `str` methods used by src/) -/

/-- Model of Python `str.strip` on a character list: remove leading and
trailing whitespace. -/
def trimL (l : List Char) : List Char :=
  ((l.dropWhile Char.isWhitespace).reverse.dropWhile Char.isWhitespace).reverse

/-- Model of Python `str.strip`. -/
def strip (s : String) : String := ⟨trimL s.data⟩

/-- Model of Python `str.lower` (character-wise; the titles and role
names in this repository are ASCII, where `Char.toLower` agrees with
Python). -/
def lowerS (s : String) : String := ⟨s.data.map Char.toLower⟩

/-- Model of the Python substring test `needle in hay` on character
lists: some suffix of `hay` starts with `needle`. -/
def containsL (needle : List Char) : List Char → Bool
  | [] => needle.isEmpty
  | c :: t => needle.isPrefixOf (c :: t) || containsL needle t

/-- Model of the Python substring test `needle in hay`. -/
def containsS (hay needle : String) : Bool := containsL needle.data hay.data

/-- Model of Python `str.startswith`. -/
def startsWithS (s pre : String) : Bool := pre.data.isPrefixOf s.data

/-- Model of Python `sep.join(parts)`. -/
def joinWith (sep : String) : List String → String
  | [] => ""
  | [x] => x
  | x :: y :: t => x ++ sep ++ joinWith sep (y :: t)

/-- Model of Python `str.split()` (no argument) on character lists:
split on runs of whitespace, discarding empty tokens. `cur` is the
reversed current token being accumulated. -/
def splitWsAux : List Char → List Char → List (List Char)
  | cur, [] => if cur.isEmpty then [] else [cur.reverse]
  | cur, c :: t =>
    if Char.isWhitespace c then
      if cur.isEmpty then splitWsAux [] t else cur.reverse :: splitWsAux [] t
    else splitWsAux (c :: cur) t

/-- Model of Python `str.split()` (no argument). -/
def splitWsL (l : List Char) : List (List Char) := splitWsAux [] l

/-- Model of Python `str.split()`. -/
def splitWsS (s : String) : List String := (splitWsL s.data).map String.mk

/-- Model of Python `str.split(sep)` for a non-empty separator, on
character lists: cut at every (leftmost-first, non-overlapping)
occurrence of `sep`. -/
def splitL (sep : List Char) : List Char → List (List Char)
  | [] => [[]]
  | c :: t =>
    if sep.isPrefixOf (c :: t) then
      [] :: splitL sep (t.drop (sep.length - 1))
    else
      match splitL sep t with
      | [] => [[c]]
      | p :: ps => (c :: p) :: ps
termination_by l => l.length
decreasing_by
  · simp only [List.length_drop, List.length_cons]; omega
  · simp only [List.length_cons]; omega

/-- Model of Python `str.split(sep)` for a non-empty separator. -/
def splitOnS (s sep : String) : List String := (splitL sep.data s.data).map String.mk

/-- Model of Python `str.replace(old, new)` for a non-empty `old`, on
character lists: replace every (leftmost-first, non-overlapping)
occurrence. -/
def replaceL (old new : List Char) : List Char → List Char
  | [] => []
  | c :: t =>
    if old.isPrefixOf (c :: t) then new ++ replaceL old new (t.drop (old.length - 1))
    else c :: replaceL old new t
termination_by l => l.length
decreasing_by
  · simp only [List.length_drop, List.length_cons]; omega
  · simp only [List.length_cons]; omega

/-- Model of Python `str.replace(old, new)` for a non-empty `old`. -/
def replaceS (s old new : String) : String := ⟨replaceL old.data new.data s.data⟩

/-! ## Python dicts as insertion-ordered association lists -/

/-- Model of Python dict assignment `d[k] = v`: update the value in
place if the key is present, otherwise append the new pair at the end
(Python dicts preserve insertion order). -/
def dictInsert {α : Type} : List (String × α) → String → α → List (String × α)
  | [], k, v => [(k, v)]
  | (k', v') :: t, k, v =>
    if k' = k then (k', v) :: t else (k', v') :: dictInsert t k v

/-- Model of Python dict lookup (`d.get(k)` / `k in d`). -/
def dictGet {α : Type} : List (String × α) → String → Option α
  | [], _ => none
  | (k', v) :: t, k => if k' = k then some v else dictGet t k

/-! ## src/utils/config.py -/

/-- `ENGINEERING_ROLES` from src/utils/config.py: the built-in default
role → hourly-rate table. -/
def ENGINEERING_ROLES : List (String × ℚ) :=
  [("Frontend Engineer", 10), ("Backend Engineer", 7), ("Database Engineer", 12),
   ("Cloud Engineer", 15), ("Testing Engineer", 7)]

/-- `get_report_path` from src/utils/config.py: the deterministic
report path `REPORTS_DIR / model_name / f"{report_type}_report.docx"`,
rendered relative to the project root (`REPORTS_DIR` is the fixed
directory `<project root>/data/reports`). -/
def get_report_path (model_name report_type : String) : String :=
  "data/reports/" ++ model_name ++ "/" ++ report_type ++ "_report.docx"

/-! ## src/tools/cost_calculator.py -/

/-- Value of a run of decimal digit characters. -/
def digitsToNat (l : List Char) : ℕ :=
  l.foldl (fun a c => 10 * a + (c.toNat - 48)) 0

/-- Model of Python `float(tok)` on the decimal-literal grammar
`[+-] digits [. digits] [(e|E) [+-] digits]` (at least one mantissa
digit required), returning the exact rational value, or `none` when the
token does not parse (Python raises `ValueError` there). The special
forms `inf`/`nan`, digit-group underscores and non-ASCII digits that
Python also accepts are outside the rate-table domain and not
modelled. -/
def pyFloat? (tok : List Char) : Option ℚ :=
  let sign : ℚ × List Char :=
    match tok with
    | '+' :: t => (1, t)
    | '-' :: t => (-1, t)
    | _ => (1, tok)
  let ip := sign.2.takeWhile Char.isDigit
  let r1 := sign.2.dropWhile Char.isDigit
  let fr : List Char × List Char :=
    match r1 with
    | '.' :: t => (t.takeWhile Char.isDigit, t.dropWhile Char.isDigit)
    | _ => ([], r1)
  if ip.isEmpty && fr.1.isEmpty then none
  else
    let mant : ℚ := (digitsToNat ip : ℚ) + (digitsToNat fr.1 : ℚ) / ((10 : ℚ) ^ fr.1.length)
    match fr.2 with
    | [] => some (sign.1 * mant)
    | 'e' :: t | 'E' :: t =>
      let es : Bool × List Char :=
        match t with
        | '+' :: u => (true, u)
        | '-' :: u => (false, u)
        | _ => (true, t)
      let ed := es.2.takeWhile Char.isDigit
      let rest := es.2.dropWhile Char.isDigit
      if ed.isEmpty || !rest.isEmpty then none
      else some (sign.1 * mant *
        (if es.1 then (10 : ℚ) ^ digitsToNat ed else 1 / (10 : ℚ) ^ digitsToNat ed))
    | _ => none

/-- The line-processing loop of `load_hourly_rates`
(src/tools/cost_calculator.py, lines 13-27). The whole `for` loop sits
inside one `try`: a stripped non-empty line with at least two
whitespace-separated tokens whose last token fails `float` raises
`ValueError`, which aborts the loop (the partial dict built so far is
kept, the remaining lines are never read, and the handler only
prints). Blank lines and single-token lines are skipped. -/
def ratesLoop : List String → List (String × ℚ) → List (String × ℚ)
  | [], acc => acc
  | l :: rest, acc =>
    let line := strip l
    if line = "" then ratesLoop rest acc
    else
      let parts := splitWsS line
      if parts.length ≥ 2 then
        match pyFloat? (parts.getLast?.getD "").data with
        | some r => ratesLoop rest (dictInsert acc (joinWith " " parts.dropLast) r)
        | none => acc
      else ratesLoop rest acc

/-- `load_hourly_rates` from src/tools/cost_calculator.py. The file
system is abstracted as whether `PAYS_PATH` exists plus the list of
lines of its content (each line as Python's `line.strip()` sees it,
i.e. before stripping). When the resulting dict is empty the built-in
`ENGINEERING_ROLES` default is returned (a copy; sharing is irrelevant
in the pure model). Never raises to the caller. -/
def load_hourly_rates (fileExists : Bool) (fileLines : List String) : List (String × ℚ) :=
  let rates := if fileExists then ratesLoop fileLines [] else []
  if rates = [] then ENGINEERING_ROLES else rates

/-- Result shape of `calculate_task_cost`: the Python dict has an
`error` key only in the unknown-role case, modelled as an `Option`. -/
structure CostLineItem where
  error : Option String
  role : String
  hours : ℚ
  rate : ℚ
  total_cost : ℚ
deriving DecidableEq

/-- `calculate_task_cost` from src/tools/cost_calculator.py: reload the
rate table, and either flag the unknown role (zero rate and cost, no
exception) or price the task at `rate * hours`. -/
def calculate_task_cost (fileExists : Bool) (fileLines : List String)
    (role : String) (hours : ℚ) : CostLineItem :=
  let rates := load_hourly_rates fileExists fileLines
  match dictGet rates role with
  | none =>
    { error := some ("Role \x27" ++ role ++ "\x27 not found in hourly rates"),
      role := role, hours := hours, rate := 0, total_cost := 0 }
  | some rate =>
    { error := none, role := role, hours := hours, rate := rate, total_cost := rate * hours }

/-- A task as consumed by `calculate_project_cost` (the dict keys
`role` and `hours` read via `task.get`). -/
structure TaskInput where
  role : String
  hours : ℚ
deriving DecidableEq

/-- Totals returned by `calculate_project_cost`. The `summary` field's
two human-formatted display strings (`f"${total_cost:,.2f}"` and
`f"{total_hours:.1f} hours"`) are presentation-only renderings of the
same two numbers and are not modelled. -/
structure CostSummary where
  total_cost : ℚ
  total_hours : ℚ
  breakdown : List CostLineItem
deriving DecidableEq

/-- `calculate_project_cost` from src/tools/cost_calculator.py
(lines 60-87). The first statement of the loop body is
`role = tasksummary.get("role", "")`, but no name `tasksummary` is
defined anywhere in the module (the rest of the body uses `task`), so
the first iteration raises `NameError`; the accumulators are only
returned when the task list is empty and the loop body never runs. -/
def calculate_project_cost (fileExists : Bool) (fileLines : List String) :
    List TaskInput → Except String CostSummary
  | [] => .ok { total_cost := 0, total_hours := 0, breakdown := [] }
  | _ :: _ => .error "NameError: name \x27tasksummary\x27 is not defined"

/-- The `task_estimates` table of `estimate_hours_from_description`. -/
def task_estimates : List (String × List (String × ℚ)) :=
  [("frontend", [("simple", 8), ("medium", 16), ("complex", 32)]),
   ("backend", [("simple", 12), ("medium", 24), ("complex", 48)]),
   ("database", [("simple", 16), ("medium", 32), ("complex", 64)]),
   ("cloud", [("simple", 20), ("medium", 40), ("complex", 80)]),
   ("testing", [("simple", 8), ("medium", 16), ("complex", 24)])]

/-- The simple-tier keyword test of `estimate_hours_from_description`
(applied to the lower-cased description). -/
def hasSimpleKw (dl : String) : Bool :=
  ["simple", "basic", "quick", "minor"].any (fun w => containsS dl w)

/-- The complex-tier keyword test of `estimate_hours_from_description`
(applied to the lower-cased description). -/
def hasComplexKw (dl : String) : Bool :=
  ["complex", "advanced", "sophisticated", "comprehensive"].any (fun w => containsS dl w)

/-- The complexity selection of `estimate_hours_from_description`:
default "medium", overridden to "simple" first, else "complex". -/
def complexityOf (dl : String) : String :=
  if hasSimpleKw dl then "simple"
  else if hasComplexKw dl then "complex"
  else "medium"

/-- The role-category selection of `estimate_hours_from_description`
(applied to the lower-cased role), defaulting to "backend". -/
def roleTypeOf (rl : String) : String :=
  if containsS rl "frontend" then "frontend"
  else if containsS rl "backend" then "backend"
  else if containsS rl "database" then "database"
  else if containsS rl "cloud" then "cloud"
  else if containsS rl "test" then "testing"
  else "backend"

/-- `estimate_hours_from_description` from src/tools/cost_calculator.py:
`task_estimates.get(role_type, {}).get(complexity, 16)`. -/
def estimate_hours_from_description (description role : String) : ℚ :=
  let dl := lowerS description
  let rl := lowerS role
  (dictGet ((dictGet task_estimates (roleTypeOf rl)).getD []) (complexityOf dl)).getD 16

/-! ## src/tools/document_extractor.py -/

/-- A text run of a paragraph; python-docx exposes `run.bold` as an
optional boolean (`None` when the style is inherited). -/
structure Run where
  bold : Option Bool
deriving DecidableEq

/-- A paragraph of the questioner document as the extractor consumes
it: its style name, its runs, and its text. -/
structure Paragraph where
  styleName : String
  runs : List Run
  text : String
deriving DecidableEq

/-- A titled group of consecutive question strings. -/
structure Section where
  title : String
  questions : List String
deriving DecidableEq

/-- Result record of `extract_questioner_content`. The `metadata` dict
only ever holds the single optional key `"preamble"`, modelled as an
`Option String`. -/
structure Content where
  sections : List Section
  raw_text : String
  preamble : Option String
deriving DecidableEq

/-- Success-or-error result of the extractor (the Python function
returns either the content dict or an `{"error": ...}` dict). -/
inductive ExtractResult where
  | error (msg : String)
  | ok (c : Content)
deriving DecidableEq

/-- The section-start test of `extract_questioner_content`:
`paragraph.style.name.startswith('Heading') or paragraph.runs and
paragraph.runs[0].bold` — a heading style, or a non-empty run list
whose first run's `bold` is truthy (i.e. `True`; `None` and `False`
are falsy). -/
def isSectionMarker (p : Paragraph) : Bool :=
  startsWithS p.styleName "Heading" ||
    (match p.runs with
     | [] => false
     | r :: _ => r.bold == some true)

/-- The paragraph loop of `extract_questioner_content`, carried state:
currently open section title, its question list so far, the closed
sections, the accumulated raw text, and the optional preamble. -/
def extractLoop : List Paragraph → Option String → List String → List Section →
    String → Option String → Content
  | [], cur, qs, secs, raw, pre =>
    { sections := match cur with
        | some t => secs ++ [{ title := t, questions := qs }]
        | none => secs,
      raw_text := raw, preamble := pre }
  | p :: rest, cur, qs, secs, raw, pre =>
    let t := strip p.text
    if t = "" then extractLoop rest cur qs secs raw pre
    else
      let raw' := raw ++ t ++ "\n"
      if isSectionMarker p then
        extractLoop rest (some t) []
          (match cur with
           | some ct => secs ++ [{ title := ct, questions := qs }]
           | none => secs) raw' pre
      else
        match cur with
        | some _ => extractLoop rest cur (qs ++ [t]) secs raw' pre
        | none => extractLoop rest cur qs secs raw' (some (pre.getD "" ++ t ++ "\n"))

/-- `extract_questioner_content` from src/tools/document_extractor.py.
The document is abstracted as `none` when `QUESTIONER_PATH` does not
exist, or `some` with its paragraph list. The `try`/`except` around
the pure scan can only fire on docx-library failures, which the
paragraph-list abstraction has already absorbed. -/
def extract_questioner_content : Option (List Paragraph) → ExtractResult
  | none => .error "Questioner document not found"
  | some paras => .ok (extractLoop paras none [] [] "" none)

/-- The requirement buckets built by `extract_project_requirements`. -/
structure Requirements where
  project_overview : String
  technical_requirements : List String
  financial_requirements : List String
  timeline_requirements : List String
  resource_requirements : List String
deriving DecidableEq

/-- The initial (empty) requirement bundle. -/
def initRequirements : Requirements :=
  { project_overview := "", technical_requirements := [], financial_requirements := [],
    timeline_requirements := [], resource_requirements := [] }

/-- Overview keyword set of `extract_project_requirements`. -/
def kwOverview : List String := ["overview", "description", "summary"]

/-- Technical keyword set of `extract_project_requirements`. -/
def kwTechnical : List String := ["technical", "technology", "architecture", "system"]

/-- Financial keyword set of `extract_project_requirements`. -/
def kwFinancial : List String := ["financial", "budget", "cost", "pricing"]

/-- Timeline keyword set of `extract_project_requirements`. -/
def kwTimeline : List String := ["timeline", "schedule", "deadline", "milestone"]

/-- Resource keyword set of `extract_project_requirements`. -/
def kwResource : List String := ["resource", "team", "staff", "personnel"]

/-- `any(keyword in title_lower for keyword in kws)`. -/
def matchesKw (kws : List String) (titleLower : String) : Bool :=
  kws.any (fun k => containsS titleLower k)

/-- One iteration of the classification loop of
`extract_project_requirements`: lower-case the title, then the
`if`/`elif` chain in priority order overview, technical, financial,
timeline, resource; overview assigns the joined questions, the other
buckets extend, and a section matching nothing falls through
unchanged. -/
def classifyStep (r : Requirements) (s : Section) : Requirements :=
  let tl := lowerS s.title
  if matchesKw kwOverview tl then
    { r with project_overview := joinWith "\n" s.questions }
  else if matchesKw kwTechnical tl then
    { r with technical_requirements := r.technical_requirements ++ s.questions }
  else if matchesKw kwFinancial tl then
    { r with financial_requirements := r.financial_requirements ++ s.questions }
  else if matchesKw kwTimeline tl then
    { r with timeline_requirements := r.timeline_requirements ++ s.questions }
  else if matchesKw kwResource tl then
    { r with resource_requirements := r.resource_requirements ++ s.questions }
  else r

/-- The section-classification loop of `extract_project_requirements`
over an already extracted section list. -/
def classifySections (secs : List Section) : Requirements :=
  secs.foldl classifyStep initRequirements

/-- Success-or-error result of `extract_project_requirements`. -/
inductive ReqResult where
  | error (msg : String)
  | ok (r : Requirements)
deriving DecidableEq

/-- `extract_project_requirements` from
src/tools/document_extractor.py: extract the questioner content,
propagate an extraction error unchanged, otherwise classify the
sections. -/
def extract_project_requirements (doc : Option (List Paragraph)) : ReqResult :=
  match extract_questioner_content doc with
  | .error e => .error e
  | .ok c => .ok (classifySections c.sections)

/-! ## src/utils/file_utils.py -/

/-- A paragraph of a generated docx document (only its text matters to
`docx_to_text`). -/
structure DocxPara where
  text : String
deriving DecidableEq

/-- The file system as seen by the report writer: a map from file path
to the stored docx paragraph list. -/
def FS : Type := String → Option (List DocxPara)

/-- The file system with no stored reports. -/
def emptyFS : FS := fun _ => none

/-- `create_docx_report` from src/utils/file_utils.py: build a fresh
document containing the title heading paragraph followed by one body
paragraph holding `content` verbatim, and save it at `filepath`
(overwriting whatever was there; `ensure_directory` is absorbed by the
map model). -/
def create_docx_report (fs : FS) (content filepath title : String) : FS :=
  fun q => if q = filepath then some [{ text := title }, { text := content }] else fs q

/-- `docx_to_text` from src/utils/file_utils.py: empty string for an
absent file, otherwise the stripped texts of all paragraphs whose
stripped text is non-empty, joined with newlines. -/
def docx_to_text (fs : FS) (filepath : String) : String :=
  match fs filepath with
  | none => ""
  | some doc => joinWith "\n" ((doc.map (fun p => strip p.text)).filter (fun t => t != ""))

/-! ## src/agents/description_agent.py -/

/-- The module-level `PROMPT` string appended to the context before
each per-model report delegation. -/
def PROMPT : String :=
  "\nYou have to generate technical and financial reports based on the given context. \n1. You must always respond in markdown.\n2. Your respones for the technical report must include the following headings\n    - Introduction\n    - Core Features and Functionality, this one should include subheadings grouping different features together, along with functional and non-functional requirements\n    - Technical Architecture, telling us about the techstack \n    - Development Process, telling us about the development method such as Agile etc explaining it all\n    - Security Considerations\n    - Scalability and Performance\n    - Future Enhancements.\n3. It is necessary to include subheadings within each wherever necessary to give it a SRS format.\n4. Your response for the financial report must include the following headings\n    - Executive Summary\n    - Cost Estimation Methodology\n    - Cost Breakdown, this one would have subheadings for the development phase, in each subheading we would then we would explain how much cost it would take for that specific phase\n    - Optimal Costs and Breakdown\n    - Payment Shedule\n    - Conclusion\n    - References\n"

/-- The literal separator on which a model reply is split. -/
def FINANCIAL_SEP : String := "FINANCIAL ANALYSIS:"

/-- The technical-analysis label removed from the first half. -/
def TECH_SEP : String := "TECHNICAL ANALYSIS:"

/-- The technical/financial halves of a parsed model reply. -/
structure TF where
  technical : String
  financial : String
deriving DecidableEq

/-- `_parse_model_response` from src/agents/description_agent.py:
split the reply on `"FINANCIAL ANALYSIS:"`; with at least two parts,
technical is the first part with every `"TECHNICAL ANALYSIS:"`
occurrence removed and then stripped and financial is the second part
stripped; otherwise the whole reply is technical (unstripped) and
financial is empty. -/
def _parse_model_response (response : String) : TF :=
  match splitOnS response FINANCIAL_SEP with
  | p0 :: p1 :: _ =>
    { technical := strip (replaceS p0 TECH_SEP ""), financial := strip p1 }
  | _ => { technical := response, financial := "" }

/-- A chat message as stored by the UI and consumed by
`generate_reports`. -/
structure Msg where
  role : String
  content : String

/-- The context block built by `generate_reports` from the message
history: per message, `<{role} said> : \n{content}\n\n`. -/
def buildContext (messages : List Msg) : String :=
  messages.foldl (fun acc m => acc ++ "<" ++ m.role ++ " said> : \n" ++ m.content ++ "\n\n") ""

/-- Per-model result of `_generate_model_reports`: the two report
paths and the parsed analysis halves. -/
structure ModelReportResult where
  technical_report : String
  financial_report : String
  analysis : TF
deriving DecidableEq

/-- A model's slot in the `generate_reports` result dict: either the
report record or the `{"error": str(e)}` record produced by the
per-model `except` handler. -/
inductive Slot where
  | ok (r : ModelReportResult)
  | err (msg : String)
deriving DecidableEq

/-- The fixed model enumeration of `generate_reports` (the `llama`
entry is commented out in the source). -/
def models : List String := ["openai", "claude"]

/-- `_generate_model_reports` from src/agents/description_agent.py,
parameterised by the external delegation `call model_name context`
(an `Except` models the agent call either returning the reply text or
raising). On success the reply is parsed and the two reports are
written. Modelled from the spec: `create_technical_report` and
`create_financial_report` live in `tools/report_generator.py`, which
is not under src/; per the spec they write the titled report document
at the deterministic `get_report_path` location and return that
path. -/
def _generate_model_reports (call : String → String → Except String String)
    (model_name context : String) : Except String ModelReportResult :=
  match call model_name (context ++ PROMPT) with
  | .error e => .error e
  | .ok reply =>
    let analysis := _parse_model_response reply
    .ok { technical_report := get_report_path model_name "technical",
          financial_report := get_report_path model_name "financial",
          analysis := analysis }

/-- `generate_reports` from src/agents/description_agent.py: build the
context once, then for each model of the fixed enumeration run the
per-model generation inside `try`/`except`, recording either the
result or `{"error": str(e)}` in that model's slot of the results
dict. -/
def generate_reports (call : String → String → Except String String)
    (messages : List Msg) : List (String × Slot) :=
  let context := buildContext messages
  models.foldl
    (fun results model_name =>
      match _generate_model_reports call model_name context with
      | .ok r => dictInsert results model_name (.ok r)
      | .error e => dictInsert results model_name (.err e))
    []

/-- The slot recorded for one model by `generate_reports`. -/
def slotOf : Except String ModelReportResult → Slot
  | .ok r => .ok r
  | .error e => .err e

/-! ## Derived predicates used by the claim statements -/

/-- A rate-table line that does not abort the loading loop: blank
after stripping, or fewer than two whitespace tokens, or a last token
that `float` accepts. -/
def lineOk (l : String) : Bool :=
  if strip l = "" then true
  else if (splitWsS (strip l)).length ≥ 2 then
    (pyFloat? ((splitWsS (strip l)).getLast?.getD "").data).isSome
  else true

/-- A paragraph the extractor keeps (non-empty stripped text). -/
def nonBlank (p : Paragraph) : Bool := strip p.text != ""

/-- A kept paragraph that opens a new section. -/
def isMarkerPara (p : Paragraph) : Bool := nonBlank p && isSectionMarker p

/-- The stripped texts of the kept section-marker paragraphs, in
document order. -/
def markerTitles (paras : List Paragraph) : List String :=
  (paras.filter isMarkerPara).map (fun p => strip p.text)

/-- The stripped texts of the kept non-marker paragraphs, in document
order. -/
def nonMarkerTexts (paras : List Paragraph) : List String :=
  (paras.filter (fun p => nonBlank p && !isSectionMarker p)).map (fun p => strip p.text)

/-- One preamble update of the extractor:
`metadata["preamble"] = metadata.get("preamble", "") + text + "\n"`. -/
def preStep (a : Option String) (t : String) : Option String :=
  some (a.getD "" ++ t ++ "\n")

/-- Reference sectionizer (spec side), state "a section with title `t`
and questions `qs` is open": written directly from the claim's words —
a blank paragraph is skipped; a marker paragraph closes the open
section and opens a new one titled with its stripped text; a
non-marker paragraph is appended to the open section's question list;
the open section is flushed at end of document. To be compared with
the sections produced by `extractLoop`. -/
def sectionsSpecOpen (t : String) (qs : List String) : List Paragraph → List Section
  | [] => [{ title := t, questions := qs }]
  | p :: rest =>
    if strip p.text = "" then sectionsSpecOpen t qs rest
    else if isSectionMarker p then
      { title := t, questions := qs } :: sectionsSpecOpen (strip p.text) [] rest
    else sectionsSpecOpen t (qs ++ [strip p.text]) rest

/-- Reference sectionizer (spec side), state "no section open yet":
paragraphs before the first marker open no section (their text goes to
the preamble, which this function does not track); the first marker
opens the first section. -/
def sectionsSpec : List Paragraph → List Section
  | [] => []
  | p :: rest =>
    if strip p.text = "" then sectionsSpec rest
    else if isSectionMarker p then sectionsSpecOpen (strip p.text) [] rest
    else sectionsSpec rest

/-! ## Claim theorems -/

/-- C1: the claim says `calculate_project_cost` iterates the tasks,
skips unpriceable ones and returns total_cost = 70, total_hours = 10
on the given list without raising. The code instead raises `NameError`
on the first loop iteration, because the loop body reads the undefined
name `tasksummary`: evaluating the embedded function at the claim's
own input yields that error. -/
theorem claim_C1 :
    calculate_project_cost false []
      [{ role := "Backend Engineer", hours := 10 }, { role := "Bogus", hours := 5 }] =
    .error "NameError: name \x27tasksummary\x27 is not defined" := rfl

/-- C7: for every role absent from the freshly loaded rate table and
every hours value, `calculate_task_cost` returns the error-tagged item
with the role and hours echoed back, rate 0 and total_cost 0; the
function is total, so the miss is a value, never a raised exception. -/
theorem claim_C7 (fileExists : Bool) (fileLines : List String) (role : String) (hours : ℚ)
    (h : dictGet (load_hourly_rates fileExists fileLines) role = none) :
    calculate_task_cost fileExists fileLines role hours =
      { error := some ("Role \x27" ++ role ++ "\x27 not found in hourly rates"),
        role := role, hours := hours, rate := 0, total_cost := 0 } := by
  simp [calculate_task_cost, h]

/-- Witness for C7: a concrete unknown-role lookup against the default
rate table. -/
theorem claim_C7_witness :
    dictGet (load_hourly_rates false []) "Nonexistent Role" = none ∧
    calculate_task_cost false [] "Nonexistent Role" 5 =
      { error := some ("Role \x27" ++ "Nonexistent Role" ++ "\x27 not found in hourly rates"),
        role := "Nonexistent Role", hours := 5, rate := 0, total_cost := 0 } :=
  ⟨by decide, claim_C7 false [] "Nonexistent Role" 5 (by decide)⟩

/-- C8: for every role present in the freshly loaded rate table and
every hours value, `calculate_task_cost` returns the untagged item with
rate = table[role] and total_cost the exact product rate × hours; and
at the claim's concrete instance, "Backend Engineer" for 10 hours under
the default rates prices at rate 7 and total cost 70. -/
theorem claim_C8 (fileExists : Bool) (fileLines : List String) (role : String) (hours rate : ℚ)
    (h : dictGet (load_hourly_rates fileExists fileLines) role = some rate) :
    calculate_task_cost fileExists fileLines role hours =
      { error := none, role := role, hours := hours, rate := rate,
        total_cost := rate * hours } ∧
    calculate_task_cost false [] "Backend Engineer" 10 =
      { error := none, role := "Backend Engineer", hours := 10, rate := 7,
        total_cost := 70 } := by
  constructor
  · simp [calculate_task_cost, h]
  · have h7 : dictGet (load_hourly_rates false []) "Backend Engineer" = some 7 := by decide
    simp [calculate_task_cost, h7]
    norm_num

/-- Witness for C8: the default-table "Backend Engineer" line item. -/
theorem claim_C8_witness :
    dictGet (load_hourly_rates false []) "Backend Engineer" = some 7 ∧
    calculate_task_cost false [] "Backend Engineer" 10 =
      { error := none, role := "Backend Engineer", hours := 10, rate := 7,
        total_cost := 70 } :=
  ⟨by decide, (claim_C8 false [] "Backend Engineer" 10 7 (by decide)).2⟩

/-- C6: extending the section list by one section changes the bundle
exactly as the claim describes: the lower-cased title is tested against
the keyword sets in strict priority order overview, technical,
financial, timeline, resource; the first matching bucket receives the
section's full question list appended, except overview which is
assigned (replaced by) the joined question text; and a section matching
no keyword set leaves the bundle unchanged (silently dropped). Hence
every section lands in at most one bucket. -/
theorem claim_C6 (secs : List Section) (s : Section) :
    (matchesKw kwOverview (lowerS s.title) = true →
      classifySections (secs ++ [s]) =
        { classifySections secs with project_overview := joinWith "\n" s.questions }) ∧
    (matchesKw kwOverview (lowerS s.title) = false →
     matchesKw kwTechnical (lowerS s.title) = true →
      classifySections (secs ++ [s]) =
        { classifySections secs with technical_requirements :=
            (classifySections secs).technical_requirements ++ s.questions }) ∧
    (matchesKw kwOverview (lowerS s.title) = false →
     matchesKw kwTechnical (lowerS s.title) = false →
     matchesKw kwFinancial (lowerS s.title) = true →
      classifySections (secs ++ [s]) =
        { classifySections secs with financial_requirements :=
            (classifySections secs).financial_requirements ++ s.questions }) ∧
    (matchesKw kwOverview (lowerS s.title) = false →
     matchesKw kwTechnical (lowerS s.title) = false →
     matchesKw kwFinancial (lowerS s.title) = false →
     matchesKw kwTimeline (lowerS s.title) = true →
      classifySections (secs ++ [s]) =
        { classifySections secs with timeline_requirements :=
            (classifySections secs).timeline_requirements ++ s.questions }) ∧
    (matchesKw kwOverview (lowerS s.title) = false →
     matchesKw kwTechnical (lowerS s.title) = false →
     matchesKw kwFinancial (lowerS s.title) = false →
     matchesKw kwTimeline (lowerS s.title) = false →
     matchesKw kwResource (lowerS s.title) = true →
      classifySections (secs ++ [s]) =
        { classifySections secs with resource_requirements :=
            (classifySections secs).resource_requirements ++ s.questions }) ∧
    (matchesKw kwOverview (lowerS s.title) = false →
     matchesKw kwTechnical (lowerS s.title) = false →
     matchesKw kwFinancial (lowerS s.title) = false →
     matchesKw kwTimeline (lowerS s.title) = false →
     matchesKw kwResource (lowerS s.title) = false →
      classifySections (secs ++ [s]) = classifySections secs) := by
  refine ⟨?_, ?_, ?_, ?_, ?_, ?_⟩ <;> intros <;>
    simp_all [classifySections, List.foldl_append, classifyStep]

/-- Witness for C6: an overview-titled section assigns the joined
question text, and a section matching no keyword set is dropped. -/
theorem claim_C6_witness :
    matchesKw kwOverview (lowerS "Project Overview") = true ∧
    classifySections [{ title := "Project Overview", questions := ["q1", "q2"] }] =
      { initRequirements with project_overview := joinWith "\n" ["q1", "q2"] } ∧
    matchesKw kwResource (lowerS "Miscellaneous") = false ∧
    classifySections [{ title := "Miscellaneous", questions := ["z"] }] =
      classifySections [] := by
  refine ⟨by decide, ?_, by decide, ?_⟩
  · have h := (claim_C6 [] { title := "Project Overview", questions := ["q1", "q2"] }).1
      (by decide)
    simpa [classifySections] using h
  · exact (claim_C6 [] { title := "Miscellaneous", questions := ["z"] }).2.2.2.2.2
      (by decide) (by decide) (by decide) (by decide) (by decide)

/-- `generate_reports` produces exactly one slot per model of the fixed
enumeration, each determined by that model's own delegation alone. -/
theorem generate_reports_spec (call : String → String → Except String String)
    (messages : List Msg) :
    generate_reports call messages =
      [("openai", slotOf (_generate_model_reports call "openai" (buildContext messages))),
       ("claude", slotOf (_generate_model_reports call "claude" (buildContext messages)))] := by
  cases h1 : _generate_model_reports call "openai" (buildContext messages) <;>
    cases h2 : _generate_model_reports call "claude" (buildContext messages) <;>
      simp [generate_reports, models, h1, h2, dictInsert, slotOf]

/-- C9: each model of the fixed enumeration is processed
independently by `generate_reports`: a model's slot depends only on
its own delegate call (so another model's raised error cannot prevent
it from producing its result), a raising delegate call is caught and
recorded as an error value in that model's slot only, and a succeeding
delegate call yields the parsed report record in its slot. -/
theorem claim_C9 (call call2 : String → String → Except String String)
    (messages : List Msg) (m : String) (hm : m ∈ models) :
    ((∀ ctx, call m ctx = call2 m ctx) →
      dictGet (generate_reports call messages) m =
        dictGet (generate_reports call2 messages) m) ∧
    (∀ e, call m (buildContext messages ++ PROMPT) = .error e →
      dictGet (generate_reports call messages) m = some (.err e)) ∧
    (∀ reply, call m (buildContext messages ++ PROMPT) = .ok reply →
      dictGet (generate_reports call messages) m =
        some (.ok { technical_report := get_report_path m "technical",
                    financial_report := get_report_path m "financial",
                    analysis := _parse_model_response reply })) := by
  have hmem : m = "openai" ∨ m = "claude" := by simpa [models] using hm
  refine ⟨?_, ?_, ?_⟩
  · intro hiso
    rw [generate_reports_spec, generate_reports_spec]
    rcases hmem with rfl | rfl <;>
      simp [dictGet, _generate_model_reports, hiso (buildContext messages ++ PROMPT)]
  · intro e he
    rw [generate_reports_spec]
    rcases hmem with rfl | rfl <;> simp [dictGet, _generate_model_reports, he, slotOf]
  · intro reply hr
    rw [generate_reports_spec]
    rcases hmem with rfl | rfl <;> simp [dictGet, _generate_model_reports, hr, slotOf]

/-- Witness for C9: a delegate that raises for "openai" but answers
for "claude" yields an error slot for "openai" and a full report slot
for "claude" in the same batch. -/
theorem claim_C9_witness :
    ("openai" ∈ models) ∧ ("claude" ∈ models) ∧
    dictGet (generate_reports
        (fun mn _ => if mn = "openai" then .error "boom" else .ok "reply") []) "openai" =
      some (.err "boom") ∧
    dictGet (generate_reports
        (fun mn _ => if mn = "openai" then .error "boom" else .ok "reply") []) "claude" =
      some (.ok { technical_report := get_report_path "claude" "technical",
                  financial_report := get_report_path "claude" "financial",
                  analysis := _parse_model_response "reply" }) :=
  ⟨by decide, by decide,
   (claim_C9 (fun mn _ => if mn = "openai" then .error "boom" else .ok "reply")
     (fun mn _ => if mn = "openai" then .error "boom" else .ok "reply") [] "openai"
     (by decide)).2.1 "boom" rfl,
   (claim_C9 (fun mn _ => if mn = "openai" then .error "boom" else .ok "reply")
     (fun mn _ => if mn = "openai" then .error "boom" else .ok "reply") [] "claude"
     (by decide)).2.2 "reply" rfl⟩

/-- The role-category selection always lands in the five table keys
(the final `else` defaults to "backend"). -/
theorem roleTypeOf_mem (rl : String) :
    roleTypeOf rl ∈ ["frontend", "backend", "database", "cloud", "testing"] := by
  unfold roleTypeOf
  split_ifs <;> simp

/-- The complexity selection always lands in the three tier keys. -/
theorem complexityOf_mem (dl : String) :
    complexityOf dl ∈ ["simple", "complex", "medium"] := by
  unfold complexityOf
  split_ifs <;> simp

/-- A simple-tier keyword forces the "simple" tier (the simple check is
evaluated before the complex one). -/
theorem complexityOf_eq_simple (dl : String) (h : hasSimpleKw dl = true) :
    complexityOf dl = "simple" := by
  simp [complexityOf, h]

/-- C10: `estimate_hours_from_description` is a total function whose
value always lies in the fixed ten-value {role-category ×
complexity-tier} table image {8, 12, 16, 20, 24, 32, 40, 48, 64, 80};
the inner lookups always succeed (role category defaults to "backend"
and every category defines all three tiers), so the final `.get`
fallback value 16 is unreachable; and a simple-tier keyword wins over a
complex-tier keyword, the estimate being the simple-tier entry of the
role's category whenever both kinds of keyword occur. -/
theorem claim_C10 (description role : String) :
    estimate_hours_from_description description role ∈
      ([8, 12, 16, 20, 24, 32, 40, 48, 64, 80] : List ℚ) ∧
    (∃ tiers, dictGet task_estimates (roleTypeOf (lowerS role)) = some tiers ∧
      dictGet tiers (complexityOf (lowerS description)) =
        some (estimate_hours_from_description description role)) ∧
    (hasSimpleKw (lowerS description) = true →
     hasComplexKw (lowerS description) = true →
      estimate_hours_from_description description role =
        (dictGet ((dictGet task_estimates (roleTypeOf (lowerS role))).getD [])
          "simple").getD 16) := by
  have h1 := roleTypeOf_mem (lowerS role)
  have h2 := complexityOf_mem (lowerS description)
  simp only [List.mem_cons, List.not_mem_nil, or_false] at h1 h2
  refine ⟨?_, ?_, ?_⟩
  · rcases h1 with h1 | h1 | h1 | h1 | h1 <;> rcases h2 with h2 | h2 | h2 <;>
      simp only [estimate_hours_from_description, h1, h2] <;> decide
  · refine ⟨(dictGet task_estimates (roleTypeOf (lowerS role))).getD [], ?_, ?_⟩ <;>
      rcases h1 with h1 | h1 | h1 | h1 | h1 <;> rcases h2 with h2 | h2 | h2 <;>
        simp only [estimate_hours_from_description, h1, h2] <;> decide
  · intro hs _
    simp only [estimate_hours_from_description, complexityOf_eq_simple _ hs]

/-- Witness for C10: a description carrying both a simple-tier and a
complex-tier keyword estimates at the simple tier of its role
category. -/
theorem claim_C10_witness :
    hasSimpleKw (lowerS "a simple but complex feature") = true ∧
    hasComplexKw (lowerS "a simple but complex feature") = true ∧
    estimate_hours_from_description "a simple but complex feature" "Cloud Engineer" ∈
      ([8, 12, 16, 20, 24, 32, 40, 48, 64, 80] : List ℚ) ∧
    estimate_hours_from_description "a simple but complex feature" "Cloud Engineer" =
      (dictGet ((dictGet task_estimates (roleTypeOf (lowerS "Cloud Engineer"))).getD [])
        "simple").getD 16 :=
  ⟨by decide, by decide,
   (claim_C10 "a simple but complex feature" "Cloud Engineer").1,
   (claim_C10 "a simple but complex feature" "Cloud Engineer").2.2 (by decide) (by decide)⟩

/-- C4 counterexample: the claim says re-reading the written report
yields the analysis text unchanged (the round trip is the identity).
But `docx_to_text` also reads the title heading paragraph that
`create_docx_report` prepends, so writing the analysis "X" at the
"openai"/"technical" report path and re-reading gives "Report\nX",
not "X". -/
theorem claim_C4_counterexample :
    docx_to_text
      (create_docx_report emptyFS "X" (get_report_path "openai" "technical") "Report")
      (get_report_path "openai" "technical") = "Report\nX" ∧
    ("Report\nX" : String) ≠ "X" := by
  constructor
  · decide
  · decide

/-- C4 (amended): writing a report and re-reading the document's text
yields the title paragraph, a newline, and the analysis text — not the
analysis text alone — whenever title and analysis are non-empty and
already stripped; and re-invoking the write at the same path replaces
the prior file, so the overwrite is idempotent. -/
theorem claim_C4 (fs : FS) (content filepath title oldContent oldTitle : String)
    (ht : strip title = title) (ht2 : title ≠ "")
    (hc : strip content = content) (hc2 : content ≠ "") :
    docx_to_text (create_docx_report fs content filepath title) filepath =
      title ++ "\n" ++ content ∧
    create_docx_report (create_docx_report fs oldContent filepath oldTitle)
        content filepath title =
      create_docx_report fs content filepath title := by
  constructor
  · have ht2b : (title != "") = true := bne_iff_ne.mpr ht2
    have hc2b : (content != "") = true := bne_iff_ne.mpr hc2
    simp [docx_to_text, create_docx_report, List.filter, ht, hc, ht2b, hc2b, joinWith]
  · funext q
    simp only [create_docx_report]
    split <;> rfl

/-- Witness for C4: the concrete "openai"/"technical" round trip and
overwrite. -/
theorem claim_C4_witness :
    (strip "Report" = "Report" ∧ ("Report" : String) ≠ "" ∧
     strip "X" = "X" ∧ ("X" : String) ≠ "") ∧
    docx_to_text
      (create_docx_report emptyFS "X" (get_report_path "openai" "technical") "Report")
      (get_report_path "openai" "technical") = "Report" ++ "\n" ++ "X" ∧
    create_docx_report
        (create_docx_report emptyFS "old" (get_report_path "openai" "technical") "Report")
        "X" (get_report_path "openai" "technical") "Report" =
      create_docx_report emptyFS "X" (get_report_path "openai" "technical") "Report" :=
  ⟨⟨by decide, by decide, by decide, by decide⟩,
   (claim_C4 emptyFS "X" (get_report_path "openai" "technical") "Report" "old" "Report"
     (by decide) (by decide) (by decide) (by decide)).1,
   (claim_C4 emptyFS "X" (get_report_path "openai" "technical") "Report" "old" "Report"
     (by decide) (by decide) (by decide) (by decide)).2⟩

/-- A list is a (boolean) prefix of itself extended by anything. -/
theorem isPrefixOf_append_self (l m : List Char) : l.isPrefixOf (l ++ m) = true := by
  rw [ List.isPrefixOf_iff_prefix]
  exact List.prefix_append l m

/-- Boolean prefixes only look at the first `p.length` elements. -/
theorem isPrefixOf_of_take_eq (p u v : List Char) (h : p.isPrefixOf u = true)
    (heq : u.take p.length = v.take p.length) : p.isPrefixOf v = true := by
  rw [ List.isPrefixOf_iff_prefix] at h ⊢
  rw [List.prefix_iff_eq_take] at h ⊢
  exact h.trans heq

/-- Splitting a list that does not contain the separator yields the
one-piece list. -/
theorem splitL_of_not_contains (sep : List Char) (l : List Char)
    (h : containsL sep l = false) : splitL sep l = [l] := by
  induction l with
  | nil => simp [splitL]
  | cons c t ih =>
    simp only [containsL, Bool.or_eq_false_iff] at h
    simp [splitL, h.1, ih h.2]

/-- Splitting at an explicitly placed separator occurrence: when no
occurrence of the separator starts inside `t` (not even one overlapping
the boundary, which is what the `t ++ sep.dropLast` form rules out),
the first piece is exactly `t` and splitting continues on `f`. -/
theorem splitL_append_sep (sep t f : List Char) (hsep : sep ≠ [])
    (h : containsL sep (t ++ sep.dropLast) = false) :
    splitL sep (t ++ sep ++ f) = t :: splitL sep f := by
  induction t with
  | nil =>
    obtain ⟨s0, st, rfl⟩ : ∃ s0 st, sep = s0 :: st := by
      cases sep with
      | nil => exact absurd rfl hsep
      | cons s0 st => exact ⟨s0, st, rfl⟩
    have hpre : (s0 :: st).isPrefixOf (s0 :: (st ++ f)) = true := by
      rw [← List.cons_append]
      exact isPrefixOf_append_self _ _
    simp [splitL, hpre, List.drop_left]
  | cons c t' ih =>
    simp only [List.cons_append, containsL, Bool.or_eq_false_iff] at h
    obtain ⟨h1, h2⟩ := h
    have hG : sep.isPrefixOf (c :: (t' ++ (sep ++ f))) = false := by
      cases hg : sep.isPrefixOf (c :: (t' ++ (sep ++ f))) with
      | false => rfl
      | true =>
        exfalso
        have hlast := List.dropLast_append_getLast hsep
        have hlen1 : 0 < sep.length := List.length_pos.mpr hsep
        have hrw : c :: (t' ++ (sep ++ f)) =
            ((c :: t') ++ sep.dropLast) ++ ([sep.getLast hsep] ++ f) := by
          conv_lhs => rw [← hlast]
          simp [List.append_assoc]
        have hlen : sep.length ≤ ((c :: t') ++ sep.dropLast).length := by
          simp [List.length_dropLast]
          omega
        have heq : (c :: (t' ++ (sep ++ f))).take sep.length =
            ((c :: t') ++ sep.dropLast).take sep.length := by
          rw [hrw, List.take_append_of_le_length hlen]
        have hcontra := isPrefixOf_of_take_eq sep _ _ hg heq
        simp only [List.cons_append] at hcontra
        simp_all
    have ih2 := ih h2
    have hG' : ¬ (sep <+: c :: (t' ++ (sep ++ f))) := by
      rw [← List.isPrefixOf_iff_prefix]
      simp [hG]
    simp only [List.append_assoc] at ih2
    simp only [List.cons_append, List.append_assoc]
    simp [splitL, hG', ih2]

/-- C3 counterexample: on a reply without the separator the parser
returns the reply itself, not the trimmed reply, as `technical`; and
with two separator occurrences, `financial` is only the text between
the first and second occurrence, not all the text after the first. -/
theorem claim_C3_counterexample :
    (_parse_model_response " x ").technical = " x " ∧
    (" x " : String) ≠ strip " x " ∧
    (_parse_model_response "a FINANCIAL ANALYSIS: b FINANCIAL ANALYSIS: c").financial = "b" ∧
    ("b" : String) ≠ "b FINANCIAL ANALYSIS: c" := by
  refine ⟨?_, by decide, ?_, by decide⟩
  · simp [_parse_model_response, splitOnS, FINANCIAL_SEP, splitL, List.isPrefixOf]
  · simp [_parse_model_response, splitOnS, FINANCIAL_SEP, TECH_SEP, splitL,
      List.isPrefixOf, replaceS, replaceL, strip, trimL]

/-- C3 (amended): when the reply does not contain the separator
`"FINANCIAL ANALYSIS:"`, the parser returns the full reply unchanged
(not trimmed) as `technical` and the empty string as `financial`.
When the separator occurs, the reply is split on all its occurrences:
with exactly one occurrence — reply `t ++ separator ++ g`, no
occurrence starting inside `t`, none inside `g` — `technical` is `t`
with every `"TECHNICAL ANALYSIS:"` occurrence removed and then
trimmed, and `financial` is `g` trimmed; with two or more occurrences
— reply `t ++ separator ++ (g ++ separator ++ tail)` where `t`
precedes the first occurrence, `g` lies between the first and second,
and `tail` is arbitrary (it may contain further occurrences) —
`technical` is again `t` with every `"TECHNICAL ANALYSIS:"` occurrence
removed and then trimmed, and `financial` is only `g` trimmed, the
text between the first and second occurrence. The hypotheses of the
form `containsL sep (x ++ sep.dropLast) = false` say exactly that no
separator occurrence starts inside `x`, not even one overlapping `x`'s
end. -/
theorem claim_C3 (r t g tail : String) :
    (containsS r FINANCIAL_SEP = false →
      _parse_model_response r = { technical := r, financial := "" }) ∧
    (containsL FINANCIAL_SEP.data (t.data ++ FINANCIAL_SEP.data.dropLast) = false →
     containsS g FINANCIAL_SEP = false →
      _parse_model_response (t ++ FINANCIAL_SEP ++ g) =
        { technical := strip (replaceS t TECH_SEP ""), financial := strip g }) ∧
    (containsL FINANCIAL_SEP.data (t.data ++ FINANCIAL_SEP.data.dropLast) = false →
     containsL FINANCIAL_SEP.data (g.data ++ FINANCIAL_SEP.data.dropLast) = false →
      _parse_model_response (t ++ FINANCIAL_SEP ++ (g ++ FINANCIAL_SEP ++ tail)) =
        { technical := strip (replaceS t TECH_SEP ""), financial := strip g }) := by
  refine ⟨?_, ?_, ?_⟩
  · intro h
    obtain ⟨rl⟩ := r
    simp only [containsS] at h
    simp [_parse_model_response, splitOnS, splitL_of_not_contains _ _ h]
  · intro h1 h2
    obtain ⟨tl⟩ := t
    obtain ⟨gl⟩ := g
    simp only [containsS] at h2
    have hsep : FINANCIAL_SEP.data ≠ [] := by decide
    have hdata : (String.mk tl ++ FINANCIAL_SEP ++ String.mk gl).data =
        tl ++ FINANCIAL_SEP.data ++ gl := by
      rw [String.data_append, String.data_append]
    have hsplit := splitL_append_sep FINANCIAL_SEP.data tl gl hsep (by simpa using h1)
    have hsplit2 := splitL_of_not_contains FINANCIAL_SEP.data gl h2
    simp only [List.append_assoc] at hsplit hdata
    simp [_parse_model_response, splitOnS, hdata, hsplit, hsplit2]
  · intro h1 h2
    obtain ⟨tl⟩ := t
    obtain ⟨gl⟩ := g
    obtain ⟨rl⟩ := tail
    have hsep : FINANCIAL_SEP.data ≠ [] := by decide
    have hdata : (String.mk tl ++ FINANCIAL_SEP ++
        (String.mk gl ++ FINANCIAL_SEP ++ String.mk rl)).data =
        tl ++ FINANCIAL_SEP.data ++ (gl ++ FINANCIAL_SEP.data ++ rl) := by
      rw [String.data_append, String.data_append, String.data_append, String.data_append]
    have hsplit := splitL_append_sep FINANCIAL_SEP.data tl
      (gl ++ FINANCIAL_SEP.data ++ rl) hsep (by simpa using h1)
    have hsplit2 := splitL_append_sep FINANCIAL_SEP.data gl rl hsep (by simpa using h2)
    simp only [List.append_assoc] at hsplit hsplit2 hdata
    simp [_parse_model_response, splitOnS, hdata, hsplit, hsplit2]

/-- Witness for C3: a separator-free reply passes through unchanged, a
one-occurrence reply splits into its labelled halves, and in a reply
with two occurrences the financial half is only the text between them,
whatever follows the second occurrence. -/
theorem claim_C3_witness :
    containsS "hello world" FINANCIAL_SEP = false ∧
    _parse_model_response "hello world" =
      { technical := "hello world", financial := "" } ∧
    containsL FINANCIAL_SEP.data ("ab".data ++ FINANCIAL_SEP.data.dropLast) = false ∧
    containsS " fin " FINANCIAL_SEP = false ∧
    _parse_model_response ("ab" ++ FINANCIAL_SEP ++ " fin ") =
      { technical := strip (replaceS "ab" TECH_SEP ""), financial := strip " fin " } ∧
    containsL FINANCIAL_SEP.data (" b ".data ++ FINANCIAL_SEP.data.dropLast) = false ∧
    _parse_model_response ("ab" ++ FINANCIAL_SEP ++ (" b " ++ FINANCIAL_SEP ++ " c")) =
      { technical := strip (replaceS "ab" TECH_SEP ""), financial := strip " b " } :=
  ⟨by decide, (claim_C3 "hello world" "ab" " fin " " c").1 (by decide), by decide, by decide,
   (claim_C3 "hello world" "ab" " fin " " c").2.1 (by decide) (by decide), by decide,
   (claim_C3 "hello world" "ab" " b " " c").2.2 (by decide) (by decide)⟩

/-- Non-aborting lines are processed left to right: the loop over
`pre ++ rest` is the loop over `rest` started from the dict built over
`pre`. -/
theorem ratesLoop_append (pre rest : List String) (acc : List (String × ℚ))
    (h : ∀ l ∈ pre, lineOk l = true) :
    ratesLoop (pre ++ rest) acc = ratesLoop rest (ratesLoop pre acc) := by
  induction pre generalizing acc with
  | nil => simp [ratesLoop]
  | cons l pre' ih =>
    have hl : lineOk l = true := h l (List.mem_cons_self l pre')
    have h' : ∀ x ∈ pre', lineOk x = true := fun x hx => h x (List.mem_cons_of_mem l hx)
    simp only [List.cons_append]
    by_cases h0 : strip l = ""
    · simp [ratesLoop, h0, ih _ h']
    · by_cases h1 : (splitWsS (strip l)).length ≥ 2
      · simp only [lineOk, h0, if_false, h1, if_true] at hl
        obtain ⟨r, hr⟩ := Option.isSome_iff_exists.mp hl
        simp [ratesLoop, h0, h1, hr, ih _ h']
      · simp [ratesLoop, h0, h1, ih _ h']

/-- C2 counterexample: the claim says every line whose last token
parses as a float contributes its role→rate pair, bad lines being
skipped without affecting the other lines. But the whole loop sits in
one `try`, so the unparsable middle line aborts it: the third line
"Cloud Engineer 15", although parsable, never enters the returned
mapping, which retains only the first line's role. -/
theorem claim_C2_counterexample :
    dictGet (load_hourly_rates true
      ["Frontend Engineer 10", "Backend Engineer x", "Cloud Engineer 15"])
      "Cloud Engineer" = none ∧
    (load_hourly_rates true
      ["Frontend Engineer 10", "Backend Engineer x", "Cloud Engineer 15"]).map
      Prod.fst = ["Frontend Engineer"] ∧
    pyFloat? "15".data ≠ none := by
  refine ⟨by decide, by decide, by decide⟩

/-- C2 (amended): `load_hourly_rates` processes the lines in order; a
blank or single-token line is skipped without affecting the others; a
line with at least two tokens whose last token parses as a float
adds/overwrites its role→rate pair; a line with at least two tokens
whose last token fails to parse stops processing, keeping the entries
of the earlier lines and ignoring all later lines; when the resulting
mapping is empty (file absent, or no line contributed) the fixed
built-in 5-entry default table is returned exactly; the function is
total, so no error ever reaches the caller. -/
theorem claim_C2 (pre post : List String) (hpre : ∀ l ∈ pre, lineOk l = true) :
    (∀ bad, strip bad ≠ "" → (splitWsS (strip bad)).length ≥ 2 →
      pyFloat? ((splitWsS (strip bad)).getLast?.getD "").data = none →
      load_hourly_rates true (pre ++ bad :: post) = load_hourly_rates true pre) ∧
    (∀ l, strip l ≠ "" → ¬ (splitWsS (strip l)).length ≥ 2 →
      load_hourly_rates true (pre ++ l :: post) = load_hourly_rates true (pre ++ post)) ∧
    (∀ l, strip l = "" →
      load_hourly_rates true (pre ++ l :: post) = load_hourly_rates true (pre ++ post)) ∧
    (∀ good rate, strip good ≠ "" → (splitWsS (strip good)).length ≥ 2 →
      pyFloat? ((splitWsS (strip good)).getLast?.getD "").data = some rate →
      ratesLoop (pre ++ [good]) [] =
        dictInsert (ratesLoop pre [])
          (joinWith " " (splitWsS (strip good)).dropLast) rate) ∧
    (∀ lines, load_hourly_rates false lines = ENGINEERING_ROLES) ∧
    load_hourly_rates true [] = ENGINEERING_ROLES := by
  refine ⟨?_, ?_, ?_, ?_, ?_, ?_⟩
  · intro bad hb1 hb2 hb3
    have hsplitacc := ratesLoop_append pre (bad :: post) [] hpre
    have habort : ratesLoop (bad :: post) (ratesLoop pre []) = ratesLoop pre [] := by
      simp [ratesLoop, hb1, hb2, hb3]
    simp only [load_hourly_rates, hsplitacc, habort]
  · intro l hl1 hl2
    have hsplitacc := ratesLoop_append pre (l :: post) [] hpre
    have hsplitacc2 := ratesLoop_append pre post [] hpre
    have hskip : ratesLoop (l :: post) (ratesLoop pre []) =
        ratesLoop post (ratesLoop pre []) := by
      simp [ratesLoop, hl1, hl2]
    simp only [load_hourly_rates, hsplitacc, hsplitacc2, hskip]
  · intro l hl1
    have hsplitacc := ratesLoop_append pre (l :: post) [] hpre
    have hsplitacc2 := ratesLoop_append pre post [] hpre
    have hskip : ratesLoop (l :: post) (ratesLoop pre []) =
        ratesLoop post (ratesLoop pre []) := by
      simp [ratesLoop, hl1]
    simp only [load_hourly_rates, hsplitacc, hsplitacc2, hskip]
  · intro good rate hg1 hg2 hg3
    have hsplitacc := ratesLoop_append pre [good] [] hpre
    rw [hsplitacc]
    simp [ratesLoop, hg1, hg2, hg3]
  · intro lines
    simp [load_hourly_rates]
  · simp [load_hourly_rates, ratesLoop]

/-- Witness for C2: after a good first line, an unparsable second line
makes the loader ignore the parsable third line; and an absent file
yields the default table. -/
theorem claim_C2_witness :
    (∀ l ∈ ["Frontend Engineer 10"], lineOk l = true) ∧
    load_hourly_rates true
        (["Frontend Engineer 10"] ++ "Backend Engineer x" :: ["Cloud Engineer 15"]) =
      load_hourly_rates true ["Frontend Engineer 10"] ∧
    load_hourly_rates false ["Backend Engineer 9"] = ENGINEERING_ROLES :=
  ⟨by decide,
   (claim_C2 ["Frontend Engineer 10"] ["Cloud Engineer 15"] (by decide)).1
     "Backend Engineer x" (by decide) (by decide) (by decide),
   (claim_C2 [] [] (by decide)).2.2.2.2.1 ["Backend Engineer 9"]⟩

/-- With a section open, the sections the loop finally emits are the
already closed ones followed by exactly what the reference sectionizer
produces from the open section and the remaining paragraphs. -/
theorem extractLoop_some_sections (paras : List Paragraph) :
    ∀ t qs secs raw pre,
      (extractLoop paras (some t) qs secs raw pre).sections =
        secs ++ sectionsSpecOpen t qs paras := by
  induction paras with
  | nil => intro t qs secs raw pre; simp [extractLoop, sectionsSpecOpen]
  | cons p rest ih =>
    intro t qs secs raw pre
    by_cases h0 : strip p.text = ""
    · simp [extractLoop, sectionsSpecOpen, h0, ih]
    · cases h1 : isSectionMarker p with
      | true => simp [extractLoop, sectionsSpecOpen, h0, h1, ih]
      | false => simp [extractLoop, sectionsSpecOpen, h0, h1, ih]

/-- Before any section opens, the sections the loop finally emits are
the already closed ones followed by exactly what the reference
sectionizer produces from the remaining paragraphs. -/
theorem extractLoop_none_sections (paras : List Paragraph) :
    ∀ qs secs raw pre,
      (extractLoop paras none qs secs raw pre).sections =
        secs ++ sectionsSpec paras := by
  induction paras with
  | nil => intro qs secs raw pre; simp [extractLoop, sectionsSpec]
  | cons p rest ih =>
    intro qs secs raw pre
    by_cases h0 : strip p.text = ""
    · simp [extractLoop, sectionsSpec, h0, ih]
    · cases h1 : isSectionMarker p with
      | true => simp [extractLoop, sectionsSpec, h0, h1, extractLoop_some_sections]
      | false => simp [extractLoop, sectionsSpec, h0, h1, ih]

/-- With a section open, the preamble is never touched again. -/
theorem extractLoop_some_preamble (paras : List Paragraph) :
    ∀ t qs secs raw pre, (extractLoop paras (some t) qs secs raw pre).preamble = pre := by
  induction paras with
  | nil => intro t qs secs raw pre; simp [extractLoop]
  | cons p rest ih =>
    intro t qs secs raw pre
    by_cases h0 : strip p.text = ""
    · simp [extractLoop, h0, ih]
    · cases h1 : isSectionMarker p with
      | true => simp [extractLoop, h0, h1, ih]
      | false => simp [extractLoop, h0, h1, ih]

/-- With a section open, the final section titles are the closed ones,
the open one, then one title per remaining kept marker paragraph. -/
theorem extractLoop_some_titles (paras : List Paragraph) :
    ∀ t qs secs raw pre,
      (extractLoop paras (some t) qs secs raw pre).sections.map Section.title =
        secs.map Section.title ++ t :: markerTitles paras := by
  induction paras with
  | nil => intro t qs secs raw pre; simp [extractLoop, markerTitles]
  | cons p rest ih =>
    intro t qs secs raw pre
    by_cases h0 : strip p.text = ""
    · have hmk : isMarkerPara p = false := by simp [isMarkerPara, nonBlank, h0]
      simp [extractLoop, h0, ih, markerTitles, hmk]
    · cases h1 : isSectionMarker p with
      | true =>
        have hmk : isMarkerPara p = true := by
          simp [isMarkerPara, nonBlank, h0, h1]
        simp [extractLoop, h0, h1, ih, markerTitles, hmk]
      | false =>
        have hmk : isMarkerPara p = false := by simp [isMarkerPara, h1]
        simp [extractLoop, h0, h1, ih, markerTitles, hmk]

/-- With a section open, the concatenated question lists are the closed
ones, the open one's, then one text per remaining kept non-marker
paragraph. -/
theorem extractLoop_some_questions (paras : List Paragraph) :
    ∀ t qs secs raw pre,
      ((extractLoop paras (some t) qs secs raw pre).sections.map Section.questions).join =
        (secs.map Section.questions).join ++ qs ++ nonMarkerTexts paras := by
  induction paras with
  | nil => intro t qs secs raw pre; simp [extractLoop, nonMarkerTexts]
  | cons p rest ih =>
    intro t qs secs raw pre
    by_cases h0 : strip p.text = ""
    · have hnb : nonBlank p = false := by simp [nonBlank, h0]
      simp [extractLoop, h0, ih, nonMarkerTexts, hnb]
    · cases h1 : isSectionMarker p with
      | true =>
        simp [extractLoop, h0, h1, ih, nonMarkerTexts]
      | false =>
        have hnb : nonBlank p = true := by simp [nonBlank, h0]
        simp [extractLoop, h0, h1, ih, nonMarkerTexts, hnb]

/-- Before any section opens, the final section titles are exactly one
title per kept marker paragraph, in order. -/
theorem extractLoop_none_titles (paras : List Paragraph) :
    ∀ qs secs raw pre,
      (extractLoop paras none qs secs raw pre).sections.map Section.title =
        secs.map Section.title ++ markerTitles paras := by
  induction paras with
  | nil => intro qs secs raw pre; simp [extractLoop, markerTitles]
  | cons p rest ih =>
    intro qs secs raw pre
    by_cases h0 : strip p.text = ""
    · have hmk : isMarkerPara p = false := by simp [isMarkerPara, nonBlank, h0]
      simp [extractLoop, h0, ih, markerTitles, hmk]
    · cases h1 : isSectionMarker p with
      | true =>
        have hmk : isMarkerPara p = true := by
          simp [isMarkerPara, nonBlank, h0, h1]
        simp [extractLoop, h0, h1, extractLoop_some_titles, markerTitles, hmk]
      | false =>
        have hmk : isMarkerPara p = false := by simp [isMarkerPara, h1]
        simp [extractLoop, h0, h1, ih, markerTitles, hmk]

/-- Before any section opens, the concatenated question lists are
exactly the kept non-marker texts that come at or after the first kept
marker paragraph. -/
theorem extractLoop_none_questions (paras : List Paragraph) :
    ∀ qs secs raw pre,
      ((extractLoop paras none qs secs raw pre).sections.map Section.questions).join =
        (secs.map Section.questions).join ++
          nonMarkerTexts (paras.dropWhile (fun p => !isMarkerPara p)) := by
  induction paras with
  | nil => intro qs secs raw pre; simp [extractLoop, nonMarkerTexts]
  | cons p rest ih =>
    intro qs secs raw pre
    by_cases h0 : strip p.text = ""
    · have hmk : isMarkerPara p = false := by simp [isMarkerPara, nonBlank, h0]
      simp [extractLoop, h0, ih, hmk]
    · cases h1 : isSectionMarker p with
      | true =>
        have hmk : isMarkerPara p = true := by
          simp [isMarkerPara, nonBlank, h0, h1]
        have hnm : (nonBlank p && !isSectionMarker p) = false := by simp [h1]
        simp [extractLoop, h0, h1, extractLoop_some_questions, hmk, nonMarkerTexts, hnm]
      | false =>
        have hmk : isMarkerPara p = false := by simp [isMarkerPara, h1]
        simp [extractLoop, h0, h1, ih, hmk]

/-- Before any section opens, the preamble accumulates exactly the
kept non-marker texts that precede the first kept marker paragraph. -/
theorem extractLoop_none_preamble (paras : List Paragraph) :
    ∀ qs secs raw pre,
      (extractLoop paras none qs secs raw pre).preamble =
        (nonMarkerTexts (paras.takeWhile (fun p => !isMarkerPara p))).foldl preStep pre := by
  induction paras with
  | nil => intro qs secs raw pre; simp [extractLoop, nonMarkerTexts]
  | cons p rest ih =>
    intro qs secs raw pre
    by_cases h0 : strip p.text = ""
    · have hmk : isMarkerPara p = false := by simp [isMarkerPara, nonBlank, h0]
      have hnb : nonBlank p = false := by simp [nonBlank, h0]
      simp [extractLoop, h0, ih, hmk, nonMarkerTexts, hnb]
    · cases h1 : isSectionMarker p with
      | true =>
        have hmk : isMarkerPara p = true := by
          simp [isMarkerPara, nonBlank, h0, h1]
        simp [extractLoop, h0, h1, extractLoop_some_preamble, hmk, nonMarkerTexts]
      | false =>
        have hmk : isMarkerPara p = false := by simp [isMarkerPara, h1]
        have hnb : nonBlank p = true := by simp [nonBlank, h0]
        simp [extractLoop, h0, h1, ih, hmk, nonMarkerTexts, hnb, preStep]

/-- C5: the sectionizer is a single in-order pass: an absent document
yields the error result; otherwise the produced section list is
exactly the one described by the claim — `sections = sectionsSpec
paras`, the reference recursion in which a paragraph opens a new
section iff it is a kept marker (heading style or bold first run),
the previously open section is then closed and appended, each kept
non-marker paragraph after a section open is appended to THAT open
section's question list, and the final open section is flushed at end
of document. In addition the section titles are exactly the kept
marker texts, and the preamble accumulates exactly the kept non-marker
texts before the first marker; in particular a document with no marker
paragraph yields `sections = []` with all text in the preamble, not an
error. -/
theorem claim_C5 :
    extract_questioner_content none = .error "Questioner document not found" ∧
    (∀ paras c, extract_questioner_content (some paras) = .ok c →
      c.sections = sectionsSpec paras ∧
      c.sections.map Section.title = markerTitles paras ∧
      (c.sections.map Section.questions).join =
        nonMarkerTexts (paras.dropWhile (fun p => !isMarkerPara p)) ∧
      c.preamble =
        (nonMarkerTexts (paras.takeWhile (fun p => !isMarkerPara p))).foldl preStep none) ∧
    (∀ paras c, extract_questioner_content (some paras) = .ok c →
      (∀ p ∈ paras, isMarkerPara p = false) →
      c.sections = [] ∧
      c.preamble = (nonMarkerTexts paras).foldl preStep none) := by
  have hmain : ∀ paras c, extract_questioner_content (some paras) = .ok c →
      c.sections = sectionsSpec paras ∧
      c.sections.map Section.title = markerTitles paras ∧
      (c.sections.map Section.questions).join =
        nonMarkerTexts (paras.dropWhile (fun p => !isMarkerPara p)) ∧
      c.preamble =
        (nonMarkerTexts (paras.takeWhile (fun p => !isMarkerPara p))).foldl preStep none := by
    intro paras c h
    simp only [extract_questioner_content, ExtractResult.ok.injEq] at h
    subst h
    refine ⟨?_, ?_, ?_, ?_⟩
    · simpa using extractLoop_none_sections paras [] [] "" none
    · simpa using extractLoop_none_titles paras [] [] "" none
    · simpa using extractLoop_none_questions paras [] [] "" none
    · simpa using extractLoop_none_preamble paras [] [] "" none
  refine ⟨rfl, hmain, ?_⟩
  intro paras c h hall
  obtain ⟨_, ht, _, hp⟩ := hmain paras c h
  have hfilter : paras.filter isMarkerPara = [] :=
    List.filter_eq_nil_iff.mpr (fun a ha => by simp [hall a ha])
  have htake : paras.takeWhile (fun p => !isMarkerPara p) = paras :=
    List.takeWhile_eq_self_iff.mpr (fun a ha => by simp [hall a ha])
  constructor
  · have : c.sections.map Section.title = [] := by
      rw [ht]
      simp [markerTitles, hfilter]
    exact List.map_eq_nil_iff.mp this
  · rw [hp, htake]

/-- Witness for C5: a five-paragraph document — heading-style "H1",
plain "q1", bold-first-run "H2", then "q2" with an inherited-bold run
and "q3" with an explicitly non-bold run — extracts to sections
[{H1, [q1]}, {H2, [q2, q3]}] with an empty preamble, matching the
reference sectionizer; and a one-paragraph markerless document
produces no sections and puts its stripped text in the preamble. -/
theorem claim_C5_witness :
    extract_questioner_content (some
        [{ styleName := "Heading 1", runs := [], text := "H1" },
         { styleName := "Normal", runs := [], text := "q1" },
         { styleName := "Normal", runs := [{ bold := some true }], text := "H2" },
         { styleName := "Normal", runs := [{ bold := none }], text := "q2" },
         { styleName := "Normal", runs := [{ bold := some false }], text := "q3" }]) =
      .ok { sections := [{ title := "H1", questions := ["q1"] },
                         { title := "H2", questions := ["q2", "q3"] }],
            raw_text := "H1\nq1\nH2\nq2\nq3\n", preamble := none } ∧
    ({ sections := [{ title := "H1", questions := ["q1"] },
                    { title := "H2", questions := ["q2", "q3"] }],
       raw_text := "H1\nq1\nH2\nq2\nq3\n", preamble := none } : Content).sections =
      sectionsSpec
        [{ styleName := "Heading 1", runs := [], text := "H1" },
         { styleName := "Normal", runs := [], text := "q1" },
         { styleName := "Normal", runs := [{ bold := some true }], text := "H2" },
         { styleName := "Normal", runs := [{ bold := none }], text := "q2" },
         { styleName := "Normal", runs := [{ bold := some false }], text := "q3" }] ∧
    sectionsSpec
        [{ styleName := "Heading 1", runs := [], text := "H1" },
         { styleName := "Normal", runs := [], text := "q1" },
         { styleName := "Normal", runs := [{ bold := some true }], text := "H2" },
         { styleName := "Normal", runs := [{ bold := none }], text := "q2" },
         { styleName := "Normal", runs := [{ bold := some false }], text := "q3" }] =
      [{ title := "H1", questions := ["q1"] },
       { title := "H2", questions := ["q2", "q3"] }] ∧
    (∀ p ∈ [({ styleName := "Normal", runs := [], text := " hello " } : Paragraph)],
      isMarkerPara p = false) ∧
    ({ sections := [], raw_text := "hello\n", preamble := some "hello\n" } : Content).sections
      = [] ∧
    ({ sections := [], raw_text := "hello\n", preamble := some "hello\n" } : Content).preamble
      = (nonMarkerTexts [{ styleName := "Normal", runs := [], text := " hello " }]).foldl
          preStep none := by
  refine ⟨by decide, ?_, by decide, by decide, ?_, ?_⟩
  · exact ((claim_C5.2.1
      [{ styleName := "Heading 1", runs := [], text := "H1" },
       { styleName := "Normal", runs := [], text := "q1" },
       { styleName := "Normal", runs := [{ bold := some true }], text := "H2" },
       { styleName := "Normal", runs := [{ bold := none }], text := "q2" },
       { styleName := "Normal", runs := [{ bold := some false }], text := "q3" }]
      { sections := [{ title := "H1", questions := ["q1"] },
                     { title := "H2", questions := ["q2", "q3"] }],
        raw_text := "H1\nq1\nH2\nq2\nq3\n", preamble := none }
      (by decide)).1)
  · exact (claim_C5.2.2 [{ styleName := "Normal", runs := [], text := " hello " }]
      { sections := [], raw_text := "hello\n", preamble := some "hello\n" }
      (by decide) (by decide)).1
  · exact (claim_C5.2.2 [{ styleName := "Normal", runs := [], text := " hello " }]
      { sections := [], raw_text := "hello\n", preamble := some "hello\n" }
      (by decide) (by decide)).2

end NGEN
